import Mathlib

/-!
Shallow embedding of the firewalla-ip-monitor ingestion, classification,
data-reduction, persistence and enrichment logic (src/webapp/server.js and
src/collect_wan_connections.sh), together with theorems checking the
natural-language specification against that code.

Conventions used throughout:
* JavaScript strings are Lean `String`s; all character-level work happens on
  `List Char` via the helpers below, which mirror the JS string operations.
* Timestamps are `Nat` milliseconds since the epoch (modelling `Date.now()`
  and `new Date(ts).getTime()`).
* `null`/`undefined` JS values are `Option.none`.
* SQL tables are Lean lists of rows; SQL statements are modelled by the
  corresponding list transformations, with SQLite/PostgreSQL `UNIQUE`
  semantics (NULLs compare distinct) made explicit.
-/

namespace FwMon

/-- Characters of a string; the string helpers below work on `List Char`,
mirroring the JavaScript string operations they model. -/
def chars (s : String) : List Char := s.data

/-- Initial-segment test on character lists: `isPre p l` is true iff `p` is
an initial segment of `l`.  Models JS `String.prototype.startsWith` and the
`^`-anchored regular expressions of the sources. -/
def isPre : List Char → List Char → Bool
  | [], _ => true
  | _ :: _, [] => false
  | p :: ps, c :: cs => p == c && isPre ps cs

/-- Models the JS expression `s.startsWith(p)` (and `^`-anchored regex tests). -/
def strStarts (s p : String) : Bool := isPre (chars p) (chars s)

/-- Substring test: `hasInfix needle hay` is true iff `needle` occurs
contiguously inside `hay`.  Models `grep` fixed-string filtering. -/
def hasInfix (needle : List Char) : List Char → Bool
  | [] => isPre needle []
  | c :: rest => isPre needle (c :: rest) || hasInfix needle rest

/-- Split a character list at every occurrence of `sep` (separators removed,
empty groups kept), mirroring the grouping done by the sources' regular
expressions and by bash/awk field splitting. -/
def splitOnChar (sep : Char) : List Char → List (List Char)
  | [] => [[]]
  | c :: rest =>
    if c == sep then [] :: splitOnChar sep rest
    else
      match splitOnChar sep rest with
      | [] => [[c]]
      | g :: gs => (c :: g) :: gs

/-- One component of the dotted-quad pattern: one or more decimal digits. -/
def digitsGroup (l : List Char) : Bool := !l.isEmpty && l.all Char.isDigit

/-- Dotted-quad shape test on a character list: models the regular expression
`^\d+\.\d+\.\d+\.\d+$` used by `isExternalIP` and the collector script. -/
def quadChars (l : List Char) : Bool :=
  match splitOnChar '.' l with
  | [a, b, c, d] => digitsGroup a && digitsGroup b && digitsGroup c && digitsGroup d
  | _ => false

/-- `ip.match(/^\d+\.\d+\.\d+\.\d+$/)` from src/webapp/server.js line 199
(an empty string is also falsy there, which `quadChars` already rejects). -/
def quadShaped (s : String) : Bool := quadChars (chars s)

/-- The sixteen string prefixes matched by the JS regular expression
`^172\.(1[6-9]|2[0-9]|3[0-1])\./` in `isExternalIP`. -/
def range172strs : List String :=
  ["172.16.", "172.17.", "172.18.", "172.19.", "172.20.", "172.21.",
   "172.22.", "172.23.", "172.24.", "172.25.", "172.26.", "172.27.",
   "172.28.", "172.29.", "172.30.", "172.31."]

/-- Endpoint classifier `isExternalIP(ip)` from src/webapp/server.js lines
198-215.  The resolved egress address (`await getWanIP()`) is passed
explicitly as `wanIP`; `none` models a `null` resolution result, and the JS
truthiness guard `wanIP && ip === wanIP` becomes the `Option` match. -/
def isExternalIP (wanIP : Option String) (ip : String) : Bool :=
  if !quadShaped ip then false
  else if (match wanIP with | some w => ip == w | none => false) then false
  else if strStarts ip "192.168." || strStarts ip "10." then false
  else if range172strs.any (fun q => strStarts ip q) then false
  else if strStarts ip "127." then false
  else if strStarts ip "169.254." then false
  else if strStarts ip "224." then false
  else true

/-- Module-level egress-address cache of src/webapp/server.js
(`wanIPCache` / `wanIPCacheTime`, lines 43-44). -/
structure WanState where
  cacheIp : Option String
  cacheTime : Nat
deriving DecidableEq, Repr

/-- `WAN_IP_CACHE_DURATION = 5 * 60 * 1000` (server.js line 45). -/
def wanIpCacheDurationMs : Nat := 5 * 60 * 1000

/-- `getWanIP()` from src/webapp/server.js lines 99-118.  `dnsResult` models
the outcome of `dns.lookup(CONFIG.wanHostname)`: `some a` a successful
resolution to address `a`, `none` a thrown error.  Returns the value the JS
function returns together with the updated cache state. -/
def getWanIP (st : WanState) (now : Nat) (dnsResult : Option String) :
    Option String × WanState :=
  if (match st.cacheIp with | some _ => true | none => false)
      && now - st.cacheTime < wanIpCacheDurationMs then
    (st.cacheIp, st)
  else
    match dnsResult with
    | some addr => (some addr, ⟨some addr, now⟩)
    | none => (st.cacheIp, st)

/-- One decimal digit character (only ever applied to values below ten). -/
def digitChar : Nat → Char
  | 0 => '0' | 1 => '1' | 2 => '2' | 3 => '3' | 4 => '4'
  | 5 => '5' | 6 => '6' | 7 => '7' | 8 => '8' | _ => '9'

/-- Fuelled worker for `natDigits`; structural recursion keeps it
kernel-computable. -/
def natDigitsGo : Nat → Nat → List Char
  | 0, _ => []
  | fuel + 1, n =>
    if n < 10 then [digitChar n]
    else natDigitsGo fuel (n / 10) ++ [digitChar (n % 10)]

/-- Canonical decimal rendering of a natural number, most significant digit
first: the form in which IPv4 octets appear inside dotted-quad strings. -/
def natDigits (n : Nat) : List Char := natDigitsGo (n + 1) n

theorem digitChar_ne_dot (n : Nat) : digitChar n ≠ '.' := by
  unfold digitChar; split <;> decide

theorem digitChar_isDigit (n : Nat) : (digitChar n).isDigit = true := by
  unfold digitChar; split <;> decide

theorem digitChar_injOn (m n : Nat) (hm : m < 10) (hn : n < 10)
    (h : digitChar m = digitChar n) : m = n := by
  interval_cases m <;> interval_cases n <;> simp_all [digitChar]

theorem natDigitsGo_congr : ∀ f g n : Nat, n < f → n < g →
    natDigitsGo f n = natDigitsGo g n := by
  intro f
  induction f using Nat.strong_induction_on with
  | _ f ih =>
    intro g n hf hg
    match f, g with
    | f' + 1, g' + 1 =>
      simp only [natDigitsGo]
      split
      · rfl
      · next hge =>
        have hdiv : n / 10 < n := Nat.div_lt_self (by omega) (by omega)
        rw [ih f' (by omega) g' (n / 10) (by omega) (by omega)]

/-- Recursion equation for `natDigits`. -/
theorem natDigits_step (n : Nat) :
    natDigits n = if n < 10 then [digitChar n]
                  else natDigits (n / 10) ++ [digitChar (n % 10)] := by
  unfold natDigits
  conv_lhs => rw [natDigitsGo]
  split
  · rfl
  · next hge =>
    have hdiv : n / 10 < n := Nat.div_lt_self (by omega) (by omega)
    rw [natDigitsGo_congr n (n / 10 + 1) (n / 10) (by omega) (by omega)]

theorem natDigits_ne_nil (n : Nat) : natDigits n ≠ [] := by
  rw [natDigits_step]; split <;> simp

theorem natDigits_noDot (n : Nat) : ∀ c ∈ natDigits n, c ≠ '.' := by
  induction n using Nat.strong_induction_on with
  | _ n ih =>
    rw [natDigits_step]
    split
    · intro c hc
      rw [List.mem_singleton] at hc
      exact hc ▸ digitChar_ne_dot n
    · next hge =>
      intro c hc
      rcases List.mem_append.mp hc with h | h
      · exact ih (n / 10) (Nat.div_lt_self (by omega) (by omega)) c h
      · rw [List.mem_singleton] at h
        exact h ▸ digitChar_ne_dot (n % 10)

theorem natDigits_isDigit (n : Nat) : ∀ c ∈ natDigits n, c.isDigit = true := by
  induction n using Nat.strong_induction_on with
  | _ n ih =>
    rw [natDigits_step]
    split
    · intro c hc
      rw [List.mem_singleton] at hc
      exact hc ▸ digitChar_isDigit n
    · next hge =>
      intro c hc
      rcases List.mem_append.mp hc with h | h
      · exact ih (n / 10) (Nat.div_lt_self (by omega) (by omega)) c h
      · rw [List.mem_singleton] at h
        exact h ▸ digitChar_isDigit (n % 10)

theorem natDigits_inj : ∀ m n : Nat, natDigits m = natDigits n → m = n := by
  intro m
  induction m using Nat.strong_induction_on with
  | _ m ih =>
    intro n h
    rw [natDigits_step m, natDigits_step n] at h
    by_cases hm : m < 10 <;> by_cases hn : n < 10
    · simp only [if_pos hm, if_pos hn, List.cons.injEq, and_true] at h
      exact digitChar_injOn m n hm hn h
    · rw [if_pos hm, if_neg hn] at h
      have hlen2 := congrArg List.length h
      have hlen : 1 ≤ (natDigits (n / 10)).length :=
        List.length_pos.mpr (natDigits_ne_nil (n / 10))
      rw [List.length_singleton, List.length_append, List.length_singleton] at hlen2
      omega
    · rw [if_neg hm, if_pos hn] at h
      have hlen2 := congrArg List.length h
      have hlen : 1 ≤ (natDigits (m / 10)).length :=
        List.length_pos.mpr (natDigits_ne_nil (m / 10))
      rw [List.length_singleton, List.length_append, List.length_singleton] at hlen2
      omega
    · rw [if_neg hm, if_neg hn] at h
      obtain ⟨h1, h2⟩ := List.append_inj' h (by simp)
      have hdiv := ih (m / 10) (Nat.div_lt_self (by omega) (by omega)) (n / 10) h1
      have h2' : digitChar (m % 10) = digitChar (n % 10) := by simpa using h2
      have hmod : m % 10 = n % 10 :=
        digitChar_injOn _ _ (Nat.mod_lt _ (by omega)) (Nat.mod_lt _ (by omega)) h2'
      omega

/-- A dotted-quad string built from four numeric octets, rendered the way the
telemetry sources print IPv4 addresses. -/
def ipStr (a b c d : Nat) : String :=
  ⟨natDigits a ++ '.' :: natDigits b ++ '.' :: natDigits c ++ '.' :: natDigits d⟩

theorem isPre_sep (u v q w : List Char) (hu : ∀ x ∈ u, x ≠ '.')
    (hv : ∀ x ∈ v, x ≠ '.') :
    isPre (v ++ '.' :: q) (u ++ '.' :: w) = (decide (v = u) && isPre q w) := by
  induction v generalizing u with
  | nil =>
    cases u with
    | nil => simp [isPre]
    | cons x u' =>
      have hx : x ≠ '.' := hu x (List.mem_cons_self x u')
      simp [isPre, Ne.symm hx]
  | cons y v' ihv =>
    cases u with
    | nil =>
      have hy : y ≠ '.' := hv y (List.mem_cons_self y v')
      simp [isPre, hy]
    | cons x u' =>
      have hrec := ihv u' (fun z hz => hu z (List.mem_cons_of_mem x hz))
        (fun z hz => hv z (List.mem_cons_of_mem y hz))
      by_cases hxy : y = x
      · subst hxy
        simp [isPre, hrec]
      · simp [isPre, hxy, Ne.symm hxy]

theorem splitOnChar_sepFree (sep : Char) (u : List Char)
    (hu : ∀ x ∈ u, x ≠ sep) : splitOnChar sep u = [u] := by
  induction u with
  | nil => rfl
  | cons c rest ih =>
    have hc : c ≠ sep := hu c (List.mem_cons_self c rest)
    rw [splitOnChar, if_neg (by simpa using hc),
      ih (fun z hz => hu z (List.mem_cons_of_mem c hz))]

theorem splitOnChar_append (sep : Char) (u rest : List Char)
    (hu : ∀ x ∈ u, x ≠ sep) :
    splitOnChar sep (u ++ sep :: rest) = u :: splitOnChar sep rest := by
  induction u with
  | nil => simp [splitOnChar]
  | cons c u' ih =>
    have hc : c ≠ sep := hu c (List.mem_cons_self c u')
    rw [List.cons_append, splitOnChar, if_neg (by simpa using hc),
      ih (fun z hz => hu z (List.mem_cons_of_mem c hz))]

/-- Every octet-rendered dotted quad passes the classifier's shape regex. -/
theorem quadShaped_ipStr (a b c d : Nat) : quadShaped (ipStr a b c d) = true := by
  have hd : digitsGroup (natDigits d) = true := by
    unfold digitsGroup
    simp [natDigits_ne_nil d, List.all_eq_true.mpr (natDigits_isDigit d)]
  have ha : digitsGroup (natDigits a) = true := by
    unfold digitsGroup
    simp [natDigits_ne_nil a, List.all_eq_true.mpr (natDigits_isDigit a)]
  have hb : digitsGroup (natDigits b) = true := by
    unfold digitsGroup
    simp [natDigits_ne_nil b, List.all_eq_true.mpr (natDigits_isDigit b)]
  have hc : digitsGroup (natDigits c) = true := by
    unfold digitsGroup
    simp [natDigits_ne_nil c, List.all_eq_true.mpr (natDigits_isDigit c)]
  unfold quadShaped quadChars chars ipStr
  dsimp only
  simp only [List.cons_append, List.append_assoc]
  rw [splitOnChar_append '.' (natDigits a) _ (natDigits_noDot a),
    splitOnChar_append '.' (natDigits b) _ (natDigits_noDot b),
    splitOnChar_append '.' (natDigits c) _ (natDigits_noDot c),
    splitOnChar_sepFree '.' (natDigits d) (natDigits_noDot d)]
  simp [ha, hb, hc, hd]

/-- Testing a one-octet string prefix (such as `"10."`) against an
octet-rendered address decides equality of the first octet. -/
theorem strStarts_oct1 (a b c d n : Nat) :
    strStarts (ipStr a b c d) ⟨natDigits n ++ ['.']⟩ = decide (a = n) := by
  unfold strStarts chars ipStr
  dsimp only
  simp only [List.cons_append, List.append_assoc]
  have h := isPre_sep (natDigits a) (natDigits n) []
    (natDigits b ++ '.' :: (natDigits c ++ '.' :: natDigits d))
    (natDigits_noDot a) (natDigits_noDot n)
  simp only [List.append_nil] at h
  rw [h]
  simp only [isPre, Bool.and_true]
  have : (natDigits n = natDigits a) ↔ (a = n) :=
    ⟨fun hh => (natDigits_inj n a hh).symm ▸ rfl, fun hh => hh ▸ rfl⟩
  exact decide_eq_decide.mpr this

/-- Testing a two-octet string prefix (such as `"192.168."`) against an
octet-rendered address decides equality of the first two octets. -/
theorem strStarts_oct2 (a b c d m n : Nat) :
    strStarts (ipStr a b c d) ⟨natDigits m ++ '.' :: natDigits n ++ ['.']⟩ =
      (decide (a = m) && decide (b = n)) := by
  unfold strStarts chars ipStr
  dsimp only
  simp only [List.cons_append, List.append_assoc]
  rw [isPre_sep (natDigits a) (natDigits m) (natDigits n ++ ['.'])
    (natDigits b ++ '.' :: (natDigits c ++ '.' :: natDigits d))
    (natDigits_noDot a) (natDigits_noDot m)]
  have h2 := isPre_sep (natDigits b) (natDigits n) []
    (natDigits c ++ '.' :: natDigits d) (natDigits_noDot b) (natDigits_noDot n)
  simp only [List.append_nil] at h2
  rw [h2]
  simp only [isPre, Bool.and_true]
  have hm : (natDigits m = natDigits a) ↔ (a = m) :=
    ⟨fun hh => (natDigits_inj m a hh).symm ▸ rfl, fun hh => hh ▸ rfl⟩
  have hn : (natDigits n = natDigits b) ↔ (b = n) :=
    ⟨fun hh => (natDigits_inj n b hh).symm ▸ rfl, fun hh => hh ▸ rfl⟩
  rw [decide_eq_decide.mpr hm, decide_eq_decide.mpr hn]

/-- Helper: a one-octet dotted string prefix given by a proved literal. -/
theorem strStarts_oct1_of (a b c d n : Nat) (s : String)
    (hs : s = ⟨natDigits n ++ ['.']⟩) :
    strStarts (ipStr a b c d) s = decide (a = n) := by
  rw [hs]; exact strStarts_oct1 a b c d n

/-- Helper: a two-octet dotted string prefix given by a proved literal. -/
theorem strStarts_oct2_of (a b c d m n : Nat) (s : String)
    (hs : s = ⟨natDigits m ++ '.' :: natDigits n ++ ['.']⟩) :
    strStarts (ipStr a b c d) s = (decide (a = m) && decide (b = n)) := by
  rw [hs]; exact strStarts_oct2 a b c d m n

/-- Numeric reading of the spec's internal ranges: RFC1918 (10/8, 172.16/12,
192.168/16) plus loopback 127/8, stated on the leading octets. -/
def rfc1918OrLoopbackOct (a b : Nat) : Prop :=
  a = 10 ∨ (a = 172 ∧ 16 ≤ b ∧ b ≤ 31) ∨ (a = 192 ∧ b = 168) ∨ a = 127

/-- Numeric reading of the spec's always-excluded non-routable ranges:
link-local 169.254/16 and multicast 224/8. -/
def linkLocalMulticastOct (a b : Nat) : Prop :=
  (a = 169 ∧ b = 254) ∨ a = 224

/-- With an address that differs from the cached egress value, the egress
check of `isExternalIP` is a no-op. -/
theorem isExternalIP_wan_irrel (w ip : String) (h : ip ≠ w) :
    isExternalIP (some w) ip = isExternalIP none ip := by
  unfold isExternalIP
  have hne : (ip == w) = false := beq_eq_false_iff_ne.mpr h
  simp only [hne]

/-- Octet-level characterization of `isExternalIP` with no resolved egress
address: exactly the addresses outside the private, loopback, link-local and
multicast ranges are classified external. -/
theorem isExternalIP_none_iff (a b c d : Nat) :
    isExternalIP none (ipStr a b c d) = true ↔
      ¬ rfc1918OrLoopbackOct a b ∧ ¬ linkLocalMulticastOct a b := by
  unfold isExternalIP
  rw [quadShaped_ipStr]
  simp only [range172strs, List.any_cons, List.any_nil]
  simp only [strStarts_oct2_of a b c d 192 168 "192.168." (by decide),
    strStarts_oct1_of a b c d 10 "10." (by decide),
    strStarts_oct1_of a b c d 127 "127." (by decide),
    strStarts_oct2_of a b c d 169 254 "169.254." (by decide),
    strStarts_oct1_of a b c d 224 "224." (by decide),
    strStarts_oct2_of a b c d 172 16 "172.16." (by decide),
    strStarts_oct2_of a b c d 172 17 "172.17." (by decide),
    strStarts_oct2_of a b c d 172 18 "172.18." (by decide),
    strStarts_oct2_of a b c d 172 19 "172.19." (by decide),
    strStarts_oct2_of a b c d 172 20 "172.20." (by decide),
    strStarts_oct2_of a b c d 172 21 "172.21." (by decide),
    strStarts_oct2_of a b c d 172 22 "172.22." (by decide),
    strStarts_oct2_of a b c d 172 23 "172.23." (by decide),
    strStarts_oct2_of a b c d 172 24 "172.24." (by decide),
    strStarts_oct2_of a b c d 172 25 "172.25." (by decide),
    strStarts_oct2_of a b c d 172 26 "172.26." (by decide),
    strStarts_oct2_of a b c d 172 27 "172.27." (by decide),
    strStarts_oct2_of a b c d 172 28 "172.28." (by decide),
    strStarts_oct2_of a b c d 172 29 "172.29." (by decide),
    strStarts_oct2_of a b c d 172 30 "172.30." (by decide),
    strStarts_oct2_of a b c d 172 31 "172.31." (by decide)]
  simp only [Bool.not_true, Bool.false_eq_true, if_false]
  split_ifs with h1 h2 h3 h4 h5 <;>
    simp_all [rfc1918OrLoopbackOct, linkLocalMulticastOct, not_or] <;>
    omega

/-- Claim C1 (amended).  For every dotted-quad address built from four
octets, `isExternalIP` returns false for the RFC1918 ranges 10/8, 172.16/12,
192.168/16, loopback 127/8, link-local 169.254/16, multicast 224/8 and the
resolved egress address, and true for every other dotted-quad address — the
literal zero address included: contrary to the original claim, `isExternalIP`
classifies `0.0.0.0` as external (it is filtered out downstream, by the
collector script and by SQL `WHERE` clauses, not by the classifier). -/
theorem isExternalIP_octet_classification (wan : Option String) (a b c d : Nat) :
    isExternalIP wan (ipStr a b c d) = true ↔
      wan ≠ some (ipStr a b c d) ∧
        ¬ rfc1918OrLoopbackOct a b ∧ ¬ linkLocalMulticastOct a b := by
  cases wan with
  | none => simp [isExternalIP_none_iff]
  | some w =>
    by_cases hw : ipStr a b c d = w
    · subst hw
      unfold isExternalIP
      simp [quadShaped_ipStr]
    · rw [isExternalIP_wan_irrel w _ hw, isExternalIP_none_iff]
      have hne : some w ≠ some (ipStr a b c d) := by
        intro hcontra
        exact hw (Option.some.inj hcontra).symm
      simp [hne]

/-- Claim C1 counterexample: the classifier does not exclude the literal zero
address.  Although `"0.0.0.0"` is a dotted quad distinct from the resolved
egress address, `isExternalIP` returns true on it (with or without a resolved
egress address), where the claim requires false. -/
theorem isExternalIP_zero_address_true :
    quadShaped "0.0.0.0" = true ∧
      isExternalIP (some "99.99.99.99") "0.0.0.0" = true ∧
      isExternalIP none "0.0.0.0" = true := by
  refine ⟨by decide, by decide, by decide⟩

/-- Claim C10.  When egress resolution fails and no egress address was ever
cached, `getWanIP` returns `none`, and the classifier then applies no
self-traffic exclusion: every dotted-quad address outside the filtered
ranges — in particular the system's actual egress address — is classified
external rather than dropped. -/
theorem getWanIP_unresolved_no_self_exclusion (st : WanState) (now : Nat)
    (hcache : st.cacheIp = none) (a b c d : Nat)
    (hpriv : ¬ rfc1918OrLoopbackOct a b) (hres : ¬ linkLocalMulticastOct a b) :
    (getWanIP st now none).1 = none ∧
      isExternalIP (getWanIP st now none).1 (ipStr a b c d) = true := by
  have h1 : (getWanIP st now none).1 = none := by
    unfold getWanIP
    rw [hcache]
    simp [hcache]
  refine ⟨h1, ?_⟩
  rw [h1]
  exact (isExternalIP_none_iff a b c d).mpr ⟨hpriv, hres⟩

/-- Witness for claim C10: a concrete state with no cached egress address and
the concrete address 203.0.113.7 standing in for the actual egress address. -/
theorem getWanIP_unresolved_no_self_exclusion_witness :
    (getWanIP ⟨none, 0⟩ 1000 none).1 = none ∧
      isExternalIP (getWanIP ⟨none, 0⟩ 1000 none).1 (ipStr 203 0 113 7) = true :=
  getWanIP_unresolved_no_self_exclusion ⟨none, 0⟩ 1000 rfl 203 0 113 7
    (by unfold rfc1918OrLoopbackOct; omega)
    (by unfold linkLocalMulticastOct; omega)

/-- Input object handed to the SQLite `insertConnection` (server.js lines
1969-2001): the fourteen bound columns, with JS `null`/`undefined` as `none`.
The JS reads `connectionData.type || connectionData.connection_type`; both
spellings land in the single `connection_type` field here. -/
structure ConnInput where
  ip : String
  timestamp : String
  direction : Option String
  connection_type : Option String
  internal_ip : Option String
  internal_port : Option Nat
  external_port : Option Nat
  state : Option String
  orig_packets : Option Nat
  orig_bytes : Option Nat
  reply_packets : Option Nat
  reply_bytes : Option Nat
  details : Option String
  source_file : Option String
deriving DecidableEq, Repr

/-- A row of the `connections` table as created by `createTables` (server.js
lines 1897-1917), after the JS fallback defaults of `insertConnection` have
been applied (`direction || 'unknown'`, counters `|| 0`, `details || ''`,
`source_file || ''`).  The autoincrement `id` and `created_at` columns play
no role in the claims and are omitted. -/
structure StoredRow where
  ip : String
  timestamp : String
  direction : String
  connection_type : Option String
  internal_ip : Option String
  internal_port : Option Nat
  external_port : Option Nat
  state : Option String
  orig_packets : Nat
  orig_bytes : Nat
  reply_packets : Nat
  reply_bytes : Nat
  details : String
  source_file : String
deriving DecidableEq, Repr

/-- The defaulting performed by the parameter list of `insertConnection`. -/
def toStored (c : ConnInput) : StoredRow :=
  { ip := c.ip
    timestamp := c.timestamp
    direction := c.direction.getD "unknown"
    connection_type := c.connection_type
    internal_ip := c.internal_ip
    internal_port := c.internal_port
    external_port := c.external_port
    state := c.state
    orig_packets := c.orig_packets.getD 0
    orig_bytes := c.orig_bytes.getD 0
    reply_packets := c.reply_packets.getD 0
    reply_bytes := c.reply_bytes.getD 0
    details := c.details.getD ""
    source_file := c.source_file.getD "" }

/-- Conflict test of the `UNIQUE(ip, timestamp, direction, internal_ip,
external_port)` constraint.  Following SQL semantics (SQLite and PostgreSQL
alike), two rows conflict only when every key column is equal and the
nullable key columns are both non-NULL: NULLs are considered distinct from
every value, including other NULLs. -/
def uniqueKeyConflict (r s : StoredRow) : Bool :=
  r.ip == s.ip && r.timestamp == s.timestamp && r.direction == s.direction
    && (match r.internal_ip, s.internal_ip with
        | some x, some y => x == y
        | _, _ => false)
    && (match r.external_port, s.external_port with
        | some x, some y => x == y
        | _, _ => false)

/-- `INSERT OR IGNORE` of `insertConnection` (server.js lines 1969-2001):
returns the table after the statement and `this.changes` (1 when a row was
inserted, 0 when the conflicting insert was silently ignored).  A conflict
never rejects the promise. -/
def insertConnection (db : List StoredRow) (c : ConnInput) :
    List StoredRow × Nat :=
  let r := toStored c
  if db.any (fun s => uniqueKeyConflict s r) then (db, 0)
  else (db ++ [r], 1)

theorem uniqueKeyConflict_self (c : ConnInput)
    (hi : c.internal_ip.isSome = true) (he : c.external_port.isSome = true) :
    uniqueKeyConflict (toStored c) (toStored c) = true := by
  obtain ⟨x, hx⟩ := Option.isSome_iff_exists.mp hi
  obtain ⟨y, hy⟩ := Option.isSome_iff_exists.mp he
  unfold uniqueKeyConflict toStored
  simp [hx, hy]

/-- Claim C2 (amended).  Inserting the same connection record twice is a
silent no-op — the second insert leaves the table unchanged and reports zero
changes rather than an error — provided the nullable uniqueness-key columns
`internal_ip` and `external_port` are both non-NULL.  (When either is NULL
the SQL UNIQUE constraint treats the two arrivals as distinct and both rows
are stored; see the counterexample.) -/
theorem insertConnection_idempotent (db : List StoredRow) (c : ConnInput)
    (hi : c.internal_ip.isSome = true) (he : c.external_port.isSome = true) :
    insertConnection (insertConnection db c).1 c = ((insertConnection db c).1, 0) := by
  unfold insertConnection
  by_cases h : db.any (fun s => uniqueKeyConflict s (toStored c)) = true
  · simp [h]
  · simp only [h]
    have hmem : (db ++ [toStored c]).any
        (fun s => uniqueKeyConflict s (toStored c)) = true := by
      rw [List.any_eq_true]
      exact ⟨toStored c, List.mem_append_right db (List.mem_singleton_self _),
        uniqueKeyConflict_self c hi he⟩
    simp [hmem, h]

/-- Witness for claim C2: a concrete record with non-NULL key columns,
inserted twice into the empty table. -/
theorem insertConnection_idempotent_witness :
    insertConnection
        (insertConnection []
          ⟨"8.8.8.8", "2025-09-07 02:06:22", some "inbound", some "firemain_log",
            some "192.168.86.105", none, some 443, none, some 1, some 10, some 2,
            some 20, some "probe", some "live_collection"⟩).1
        ⟨"8.8.8.8", "2025-09-07 02:06:22", some "inbound", some "firemain_log",
          some "192.168.86.105", none, some 443, none, some 1, some 10, some 2,
          some 20, some "probe", some "live_collection"⟩ =
      ((insertConnection []
          ⟨"8.8.8.8", "2025-09-07 02:06:22", some "inbound", some "firemain_log",
            some "192.168.86.105", none, some 443, none, some 1, some 10, some 2,
            some 20, some "probe", some "live_collection"⟩).1, 0) :=
  insertConnection_idempotent []
    ⟨"8.8.8.8", "2025-09-07 02:06:22", some "inbound", some "firemain_log",
      some "192.168.86.105", none, some 443, none, some 1, some 10, some 2,
      some 20, some "probe", some "live_collection"⟩ (by decide) (by decide)

/-- Claim C2 counterexample.  With a NULL `internal_ip` (exactly what the
`connections`-source mapping produces), the duplicate arrival is not a
no-op: inserting the identical record twice stores two rows, because SQL
UNIQUE constraints treat NULL key values as pairwise distinct. -/
theorem insertConnection_null_key_duplicates :
    ((insertConnection
        (insertConnection []
          ⟨"8.8.8.8", "2025-09-07 02:06:22", some "inbound", some "firemain_log",
            none, none, none, none, some 0, some 0, some 0, some 0,
            some "x", some "live_collection"⟩).1
        ⟨"8.8.8.8", "2025-09-07 02:06:22", some "inbound", some "firemain_log",
          none, none, none, none, some 0, some 0, some 0, some 0,
          some "x", some "live_collection"⟩).1).length = 2 := by
  decide

/-- Retention configuration (`this.retentionConfig` of both database
classes in server.js). -/
structure RetentionConfig where
  maxSizeMB : Nat
  maxAgeDays : Nat
  cleanupBatchSize : Nat
  enableSizeLimit : Bool
  enableTimeLimit : Bool
deriving DecidableEq, Repr

/-- A `connections` row as seen by the retention sweeps, which read only the
address and the timestamp (here epoch milliseconds; the stored ISO-8601 UTC
strings compare chronologically, so `Nat` comparison is faithful).  A SQL
table is an unordered multiset; the sweeps below return the surviving rows
in timestamp order, which is multiset-equivalent to the real result. -/
structure DbRow where
  ip : String
  ts : Nat
deriving DecidableEq, Repr

/-- `ORDER BY timestamp ASC` over the table. -/
def sortByTs (db : List DbRow) : List DbRow :=
  List.insertionSort (fun r s => r.ts ≤ s.ts) db

theorem list_diff_take_drop {α : Type} [DecidableEq α] :
    ∀ (l : List α) (k : Nat), l.diff (l.take k) = l.drop k := by
  intro l
  induction l with
  | nil => intro k; simp
  | cons a t ih =>
    intro k
    cases k with
    | zero => simp
    | succ k' =>
      rw [List.take_succ_cons, List.diff_cons, List.erase_cons_head, ih k',
        List.drop_succ_cons]

theorem list_diff_cons_not_mem {α : Type} [DecidableEq α] (a : α) :
    ∀ (l2 l1 : List α), (∀ b ∈ l2, b ≠ a) →
      (a :: l1).diff l2 = a :: l1.diff l2 := by
  intro l2
  induction l2 with
  | nil => intro l1 _; simp
  | cons b l2' ih =>
    intro l1 hb
    have hba : b ≠ a := hb b (List.mem_cons_self b l2')
    rw [List.diff_cons, List.erase_cons_tail (by simpa using fun h => hba h.symm),
      ih (l1.erase b) (fun z hz => hb z (List.mem_cons_of_mem b hz)),
      List.diff_cons]

theorem list_diff_filter_self {α : Type} [DecidableEq α] (p : α → Bool) :
    ∀ l : List α, l.diff (l.filter p) = l.filter (fun x => !(p x)) := by
  intro l
  induction l with
  | nil => simp
  | cons a t ih =>
    by_cases hp : p a = true
    · rw [List.filter_cons_of_pos hp, List.diff_cons, List.erase_cons_head, ih,
        List.filter_cons_of_neg (by simp [hp])]
    · rw [List.filter_cons_of_neg (by simpa using hp),
        list_diff_cons_not_mem a (t.filter p) t
          (fun b hb => fun hba => hp (hba ▸ (List.mem_filter.mp hb).2)),
        ih, List.filter_cons_of_pos (by simp [hp])]

/-- Milliseconds per day; `cutoffDate.setDate(getDate() - maxAgeDays)` is
modelled as subtracting `maxAgeDays` whole days from the run time. -/
def msPerDay : Nat := 86400000

/-- The age cutoff of a retention run started at `now`. -/
def ageCutoff (cfg : RetentionConfig) (now : Nat) : Nat :=
  now - cfg.maxAgeDays * msPerDay

/-- SQLite `cleanupByAge` (server.js lines 2248-2279): one `DELETE` of the
oldest at most `cleanupBatchSize` rows whose timestamp is below the cutoff —
a single batch, with no loop around it. -/
def cleanupByAge (cfg : RetentionConfig) (now : Nat) (db : List DbRow) :
    List DbRow :=
  if !cfg.enableTimeLimit then db
  else
    (sortByTs db).diff
      (((sortByTs db).filter (fun r => r.ts < ageCutoff cfg now)).take
        cfg.cleanupBatchSize)

/-- SQLite `cleanupBySize` (server.js lines 2282-2312): if enabled and the
measured size exceeds the limit, one `DELETE` of the oldest
`cleanupBatchSize` rows — again a single batch, no loop.  `sizeOf` is the
abstract storage measure (`getDatabaseSizeMB`, a file property the rows do
not determine). -/
def cleanupBySize (sizeOf : List DbRow → Nat) (cfg : RetentionConfig)
    (db : List DbRow) : List DbRow :=
  if !cfg.enableSizeLimit then db
  else if sizeOf db ≤ cfg.maxSizeMB then db
  else (sortByTs db).diff ((sortByTs db).take cfg.cleanupBatchSize)

/-- PostgreSQL `cleanupBySize` loop body (server.js lines 1285-1299): delete
the oldest `batch` rows, stop when a batch removed fewer rows than requested,
repeat while the re-measured size still exceeds the limit.  The JS `while`
loop is unbounded; the `fuel` argument is only a termination device — the
caller passes `db.length + 1`, which the theorems show is never exhausted
when `batch ≥ 1`. -/
def pgCleanupBySizeLoop (sizeOf : List DbRow → Nat) (maxMB batch : Nat) :
    Nat → List DbRow → List DbRow
  | 0, db => db
  | fuel + 1, db =>
    if sizeOf db ≤ maxMB then db
    else if db.length - ((sortByTs db).diff ((sortByTs db).take batch)).length
        < batch then
      (sortByTs db).diff ((sortByTs db).take batch)
    else
      pgCleanupBySizeLoop sizeOf maxMB batch fuel
        ((sortByTs db).diff ((sortByTs db).take batch))

/-- PostgreSQL `cleanupBySize` (server.js lines 1274-1309). -/
def pgCleanupBySize (sizeOf : List DbRow → Nat) (cfg : RetentionConfig)
    (db : List DbRow) : List DbRow :=
  if !cfg.enableSizeLimit then db
  else if sizeOf db ≤ cfg.maxSizeMB then db
  else pgCleanupBySizeLoop sizeOf cfg.maxSizeMB cfg.cleanupBatchSize
    (db.length + 1) db

/-- Claim C4 (amended).  One SQLite `cleanupByAge` run deletes, oldest
first, at most one batch of `cleanupBatchSize` rows older than the cutoff —
there is no loop and no iteration cap inside a run — so whenever at most
`cleanupBatchSize` rows qualify, no surviving row is older than `maxAgeDays`
days relative to the run time. -/
theorem cleanupByAge_survivors_within_batch (cfg : RetentionConfig) (now : Nat)
    (db : List DbRow) (hen : cfg.enableTimeLimit = true)
    (hcount : (db.filter (fun r => r.ts < ageCutoff cfg now)).length ≤
      cfg.cleanupBatchSize) :
    ∀ r ∈ cleanupByAge cfg now db, ¬ r.ts < ageCutoff cfg now := by
  unfold cleanupByAge
  rw [hen]
  simp only [Bool.not_true, Bool.false_eq_true, if_false]
  have hlen : ((sortByTs db).filter
      (fun r => decide (r.ts < ageCutoff cfg now))).length ≤
        cfg.cleanupBatchSize := by
    unfold sortByTs
    rw [((List.perm_insertionSort _ db).filter _).length_eq]
    exact hcount
  rw [List.take_of_length_le hlen, list_diff_filter_self]
  intro r hr
  have hmem := (List.mem_filter.mp hr).2
  simpa using hmem

/-- Witness for claim C4: a two-row table, one row beyond the cutoff, batch
size ten; the fresh row survives the run and is indeed not old. -/
theorem cleanupByAge_survivors_within_batch_witness :
    ¬ (⟨"2.2.2.2", 259200000⟩ : DbRow).ts <
        ageCutoff ⟨1000, 1, 10, true, true⟩ 259200000 :=
  cleanupByAge_survivors_within_batch ⟨1000, 1, 10, true, true⟩ 259200000
    [⟨"1.1.1.1", 0⟩, ⟨"2.2.2.2", 259200000⟩] rfl (by decide)
    ⟨"2.2.2.2", 259200000⟩ (by decide)

/-- Claim C4 counterexample.  With `cleanupBatchSize = 1` and two rows older
than the one-day cutoff, a completed `cleanupByAge` run leaves a row that is
still older than `maxAgeDays`: the run performs a single batch, it does not
loop until no qualifying rows remain. -/
theorem cleanupByAge_old_row_survives :
    (cleanupByAge ⟨1000, 1, 1, true, true⟩ 259200000
        [⟨"1.1.1.1", 0⟩, ⟨"2.2.2.2", 1⟩]).any
      (fun r => r.ts < ageCutoff ⟨1000, 1, 1, true, true⟩ 259200000) = true := by
  decide

theorem pgCleanupBySizeLoop_post (sizeOf : List DbRow → Nat) (maxMB batch : Nat)
    (hb : 1 ≤ batch) :
    ∀ (fuel : Nat) (db : List DbRow), db.length + 1 ≤ fuel →
      sizeOf (pgCleanupBySizeLoop sizeOf maxMB batch fuel db) ≤ maxMB ∨
        pgCleanupBySizeLoop sizeOf maxMB batch fuel db = [] := by
  intro fuel
  induction fuel with
  | zero => intro db h; exact absurd h (by omega)
  | succ f ih =>
    intro db hlen
    rw [pgCleanupBySizeLoop]
    have hsl : (sortByTs db).length = db.length :=
      (List.perm_insertionSort _ db).length_eq
    have hdb2 : (sortByTs db).diff ((sortByTs db).take batch) =
        (sortByTs db).drop batch := list_diff_take_drop _ batch
    split_ifs with h1 h2
    · exact Or.inl h1
    · right
      rw [hdb2] at h2 ⊢
      rw [List.length_drop, hsl] at h2
      apply List.drop_eq_nil_of_le
      rw [hsl]
      omega
    · rw [hdb2] at h2 ⊢
      apply ih
      rw [List.length_drop, hsl]
      rw [List.length_drop, hsl] at h2
      omega

/-- Claim C5 (amended), PostgreSQL variant.  With a positive batch size,
after one `cleanupBySize` run either the measured size is at or below
`maxSizeMB` or every row has been deleted (the final batch removed fewer
rows than requested because the table ran out); and when the limit is
disabled or the size was already within the limit, the run deletes nothing.
The SQLite variant deletes a single batch per run and does not satisfy
this — see the counterexample. -/
theorem pgCleanupBySize_post (sizeOf : List DbRow → Nat) (cfg : RetentionConfig)
    (db : List DbRow) (hb : 1 ≤ cfg.cleanupBatchSize) :
    (cfg.enableSizeLimit = true →
      sizeOf (pgCleanupBySize sizeOf cfg db) ≤ cfg.maxSizeMB ∨
        pgCleanupBySize sizeOf cfg db = []) ∧
    (cfg.enableSizeLimit = false ∨ sizeOf db ≤ cfg.maxSizeMB →
      pgCleanupBySize sizeOf cfg db = db) := by
  unfold pgCleanupBySize
  constructor
  · intro hen
    rw [hen]
    simp only [Bool.not_true, Bool.false_eq_true, if_false]
    by_cases hsz : sizeOf db ≤ cfg.maxSizeMB
    · rw [if_pos hsz]
      exact Or.inl hsz
    · rw [if_neg hsz]
      exact pgCleanupBySizeLoop_post sizeOf cfg.maxSizeMB cfg.cleanupBatchSize hb
        (db.length + 1) db (Nat.le_refl _)
  · intro hdis
    rcases hdis with hd | hsz
    · rw [hd]
      simp
    · split_ifs with u
      · rfl
      · rfl

/-- Witness for claim C5: a three-row table with size measured as the row
count, limit 1 MB, batch size 2, size limit enabled; after the run the size
is within the limit or the table is empty. -/
theorem pgCleanupBySize_post_witness :
    List.length (pgCleanupBySize List.length ⟨1, 30, 2, true, true⟩
        [⟨"1.1.1.1", 0⟩, ⟨"2.2.2.2", 5⟩, ⟨"3.3.3.3", 9⟩]) ≤
      (⟨1, 30, 2, true, true⟩ : RetentionConfig).maxSizeMB ∨
    pgCleanupBySize List.length ⟨1, 30, 2, true, true⟩
        [⟨"1.1.1.1", 0⟩, ⟨"2.2.2.2", 5⟩, ⟨"3.3.3.3", 9⟩] = [] :=
  (pgCleanupBySize_post List.length ⟨1, 30, 2, true, true⟩
    [⟨"1.1.1.1", 0⟩, ⟨"2.2.2.2", 5⟩, ⟨"3.3.3.3", 9⟩] (by decide)).1 rfl

/-- Claim C5 counterexample, SQLite variant.  Size measured as row count,
limit 1 MB, batch size 1, three rows: after one completed `cleanupBySize`
run the size (2) still exceeds the limit although rows remain retainable —
the batch deleted exactly the requested one row, so the run stopped without
reaching the limit. -/
theorem cleanupBySize_one_batch_not_enough :
    1 < (cleanupBySize List.length ⟨1, 30, 1, true, true⟩
        [⟨"1.1.1.1", 0⟩, ⟨"2.2.2.2", 1⟩, ⟨"3.3.3.3", 2⟩]).length ∧
      cleanupBySize List.length ⟨1, 30, 1, true, true⟩
        [⟨"1.1.1.1", 0⟩, ⟨"2.2.2.2", 1⟩, ⟨"3.3.3.3", 2⟩] ≠ [] := by
  decide

/-- A `geolocations` row (schema in `createTables`, server.js lines
1919-1935).  The REAL-typed `latitude`/`longitude` columns are floating
point and are omitted; no claim reads them, and orphan cleanup moves rows
wholesale. -/
structure GeolocationRow where
  ip : String
  country : Option String
  country_code : Option String
  region : Option String
  city : Option String
  timezone : Option String
  isp : Option String
  org : Option String
  asn : Option String
  hostname : Option String
  last_updated : Nat
deriving DecidableEq, Repr

/-- `cleanupOrphanedGeolocations` (server.js lines 2315-2334):
`DELETE FROM geolocations WHERE ip NOT IN (SELECT DISTINCT ip FROM
connections)`. -/
def cleanupOrphanedGeolocations (geos : List GeolocationRow)
    (conns : List DbRow) : List GeolocationRow :=
  geos.filter (fun g => conns.any (fun c => c.ip == g.ip))

/-- Claim C8.  After one orphan-cleanup run, a geolocations row survives
(unchanged) iff its address appears in some connections row; equivalently a
row is deleted iff no connections row references its address. -/
theorem cleanupOrphanedGeolocations_iff (geos : List GeolocationRow)
    (conns : List DbRow) (g : GeolocationRow) :
    g ∈ cleanupOrphanedGeolocations geos conns ↔
      g ∈ geos ∧ ∃ c ∈ conns, c.ip = g.ip := by
  unfold cleanupOrphanedGeolocations
  rw [List.mem_filter]
  simp [List.any_eq_true]

/-- First-match association-list lookup, modelling `Map.prototype.get`. -/
def lookupA {K V : Type} [DecidableEq K] : List (K × V) → K → Option V
  | [], _ => none
  | e :: rest, k => if e.1 = k then some e.2 else lookupA rest k

/-- `Map.prototype.set`: update the existing entry in place (preserving
insertion order) or append a fresh one. -/
def setA {K V : Type} [DecidableEq K] (l : List (K × V)) (k : K) (v : V) :
    List (K × V) :=
  if l.any (fun e => e.1 = k) then
    l.map (fun e => if e.1 = k then (k, v) else e)
  else l ++ [(k, v)]

/-- A connection record as read by `applyDataReduction` (server.js lines
1780-1825): the fields the function inspects.  `timestamp` is epoch
milliseconds, modelling `new Date(conn.timestamp).getTime()`. -/
structure RConn where
  ip : String
  timestamp : Nat
  direction : String
  state : Option String
  internal_ip : Option String
  internal_port : Option Nat
  orig_packets : Nat
  orig_bytes : Nat
  reply_packets : Nat
  reply_bytes : Nat
deriving DecidableEq, Repr

/-- `skipStates` of `applyDataReduction` (server.js line 1781). -/
def skipStates : List String :=
  ["TIME_WAIT", "CLOSE", "LAST_ACK", "FIN_WAIT", "SYN_RECV"]

/-- `this.highVolumeIPs` (server.js line 999). -/
def highVolumeIPs : List String :=
  ["0.0.0.0", "8.8.8.8", "3.12.68.8", "15.197.187.26", "3.33.190.236"]

/-- The accumulator state threaded through the `for` loop of
`applyDataReduction`: the process-wide `recentListeningPorts` map (port key
`internal_ip:internal_port` → last-seen time), the per-call `aggregated` map
(bucket key `ip-bucket` → merged record), and the `result` array.  JS map
keys are modelled as pairs; for the values occurring here the string keys
the JS builds are in bijection with those pairs. -/
structure ReductionState where
  recent : List ((Option String × Option Nat) × Nat)
  aggregated : List ((String × Nat) × RConn)
  result : List RConn
deriving Repr

/-- `existing.orig_packets += conn.orig_packets || 0` and the three sibling
updates (server.js lines 1806-1809). -/
def mergeCounters (existing conn : RConn) : RConn :=
  { existing with
    orig_packets := existing.orig_packets + conn.orig_packets
    orig_bytes := existing.orig_bytes + conn.orig_bytes
    reply_packets := existing.reply_packets + conn.reply_packets
    reply_bytes := existing.reply_bytes + conn.reply_bytes }

/-- `conn.state && skipStates.includes(conn.state)` (server.js line 1787). -/
def isTransient (conn : RConn) : Bool :=
  match conn.state with
  | some s => skipStates.contains s
  | none => false

/-- One iteration of the `for` loop of `applyDataReduction` (server.js lines
1785-1817), `now` modelling `Date.now()`.  The JS truthiness test
`lastSeen && ...` is false both for a missing entry and for a zero value. -/
def reductionStep (hv : List String) (now : Nat) (st : ReductionState)
    (conn : RConn) : ReductionState :=
  if isTransient conn then st
  else
    let isListen := conn.direction == "inbound" && conn.state == some "LISTEN"
    let portKey := (conn.internal_ip, conn.internal_port)
    let skipListen := isListen &&
      (match lookupA st.recent portKey with
       | some t => !(t == 0) && now - t < 3600000
       | none => false)
    if skipListen then st
    else
      let st1 := if isListen then
        { st with recent := setA st.recent portKey now } else st
      if hv.contains conn.ip && conn.direction == "outbound" then
        let bucketKey := (conn.ip, conn.timestamp / 300000)
        match lookupA st1.aggregated bucketKey with
        | some existing =>
          { st1 with
            aggregated := setA st1.aggregated bucketKey (mergeCounters existing conn) }
        | none =>
          -- the source registers the fresh bucket AND falls through to
          -- `result.push(conn)` (no `continue` on this branch)
          { st1 with
            aggregated := setA st1.aggregated bucketKey conn
            result := st1.result ++ [conn] }
      else { st1 with result := st1.result ++ [conn] }

/-- `applyDataReduction(connections)` (server.js lines 1780-1825): fold the
loop over the batch starting from the process-wide `recent` map, then append
`aggregated.values()` (insertion order) to `result`. -/
def applyDataReduction (hv : List String)
    (recent0 : List ((Option String × Option Nat) × Nat)) (now : Nat)
    (conns : List RConn) : List RConn :=
  let final := conns.foldl (reductionStep hv now) ⟨recent0, [], []⟩
  final.result ++ final.aggregated.map (fun e => e.2)

/-- Claim C3 (code bug).  Two outbound records for the allow-listed
high-volume address 8.8.8.8 whose timestamps (0 ms and 60000 ms) fall in the
same 5-minute bucket: the reduction output contains TWO records for that
address-and-bucket — the raw first record with its original counters
(1,10,2,20), then the aggregated copy with the summed counters (4,40,6,60) —
not the single summed record the claim describes.  The fresh-bucket branch
of `applyDataReduction` registers the record for aggregation and still falls
through to `result.push(conn)`; at insert time the two then collide on the
uniqueness key and the unsummed raw record is the one that is kept. -/
theorem applyDataReduction_bucket_duplicated :
    applyDataReduction highVolumeIPs [] 1000000000
      [⟨"8.8.8.8", 0, "outbound", none, none, none, 1, 10, 2, 20⟩,
       ⟨"8.8.8.8", 60000, "outbound", none, none, none, 3, 30, 4, 40⟩] =
      [⟨"8.8.8.8", 0, "outbound", none, none, none, 1, 10, 2, 20⟩,
       ⟨"8.8.8.8", 0, "outbound", none, none, none, 4, 40, 6, 60⟩] ∧
    ((applyDataReduction highVolumeIPs [] 1000000000
      [⟨"8.8.8.8", 0, "outbound", none, none, none, 1, 10, 2, 20⟩,
       ⟨"8.8.8.8", 60000, "outbound", none, none, none, 3, 30, 4, 40⟩]).filter
        (fun r => r.ip == "8.8.8.8")).length = 2 := by
  refine ⟨by decide, by decide⟩

/-- Claim C6 counterexample.  A single record — the first and only
observation of the previously-unseen endpoint 198.51.100.7 — arrives with
the transient state TIME_WAIT, and data reduction drops it: the reduced
batch is empty, so the endpoint's first observation never reaches
persistence. -/
theorem applyDataReduction_drops_new_endpoint :
    applyDataReduction highVolumeIPs [] 1000000000
      [⟨"198.51.100.7", 0, "inbound", some "TIME_WAIT", some "192.168.86.2",
        some 51000, 0, 0, 0, 0⟩] = [] := by
  decide

/-- The endpoint address `x` is represented somewhere in the loop state:
either a result record or a pending aggregation value carries it. -/
def ipPresent (x : String) (st : ReductionState) : Prop :=
  (∃ r ∈ st.result, r.ip = x) ∨ ∃ e ∈ st.aggregated, e.2.ip = x

/-- Invariant of the aggregation map: every pending value's address equals
the address component of its bucket key. -/
def AggOK (st : ReductionState) : Prop :=
  ∀ e ∈ st.aggregated, e.2.ip = e.1.1

theorem lookupA_mem {K V : Type} [DecidableEq K] :
    ∀ (l : List (K × V)) (k : K) (v : V), lookupA l k = some v → (k, v) ∈ l := by
  intro l
  induction l with
  | nil => intro k v h; exact absurd h (by simp [lookupA])
  | cons e rest ih =>
    intro k v h
    rw [lookupA] at h
    split_ifs at h with he
    · obtain rfl : e.2 = v := Option.some.inj h
      exact he ▸ List.mem_cons_self e rest
    · exact List.mem_cons_of_mem e (ih k v h)

theorem setA_self_mem {K V : Type} [DecidableEq K] (l : List (K × V)) (k : K)
    (v : V) : (k, v) ∈ setA l k v := by
  unfold setA
  split
  · next h =>
    obtain ⟨a, ha, hak⟩ := List.any_eq_true.mp h
    exact List.mem_map.mpr ⟨a, ha, by simp [of_decide_eq_true hak]⟩
  · exact List.mem_append_right _ (List.mem_singleton_self _)

theorem mem_setA {K V : Type} [DecidableEq K] (l : List (K × V)) (k : K)
    (v : V) : ∀ e ∈ setA l k v, e ∈ l ∨ e = (k, v) := by
  intro e he
  unfold setA at he
  split at he
  · obtain ⟨a, ha, hae⟩ := List.mem_map.mp he
    by_cases hk : a.1 = k
    · right
      rw [if_pos hk] at hae
      exact hae.symm
    · left
      rw [if_neg hk] at hae
      exact hae ▸ ha
  · rcases List.mem_append.mp he with h | h
    · exact Or.inl h
    · exact Or.inr (List.mem_singleton.mp h)

theorem mem_setA_of_ne {K V : Type} [DecidableEq K] (l : List (K × V)) (k : K)
    (v : V) (e : K × V) (he : e ∈ l) (hk : e.1 ≠ k) : e ∈ setA l k v := by
  unfold setA
  split
  · exact List.mem_map.mpr ⟨e, he, by rw [if_neg hk]⟩
  · exact List.mem_append_left _ he

theorem reductionStep_result (hv : List String) (now : Nat)
    (st : ReductionState) (conn : RConn) :
    (reductionStep hv now st conn).result = st.result ∨
      (reductionStep hv now st conn).result = st.result ++ [conn] := by
  unfold reductionStep
  dsimp only
  split_ifs with h1 h2 h3 h4
  · exact Or.inl rfl
  · exact Or.inl rfl
  · cases hLk : lookupA st.aggregated (conn.ip, conn.timestamp / 300000) <;>
      simp [hLk]
  · cases hLk : lookupA st.aggregated (conn.ip, conn.timestamp / 300000) <;>
      simp [hLk]
  · exact Or.inr rfl
  · exact Or.inr rfl

theorem reductionStep_aggregated (hv : List String) (now : Nat)
    (st : ReductionState) (conn : RConn) :
    (reductionStep hv now st conn).aggregated = st.aggregated ∨
      (∃ ex, lookupA st.aggregated (conn.ip, conn.timestamp / 300000) = some ex ∧
        (reductionStep hv now st conn).aggregated =
          setA st.aggregated (conn.ip, conn.timestamp / 300000)
            (mergeCounters ex conn)) ∨
      (reductionStep hv now st conn).aggregated =
        setA st.aggregated (conn.ip, conn.timestamp / 300000) conn := by
  unfold reductionStep
  dsimp only
  split_ifs with h1 h2 h3 h4
  · exact Or.inl rfl
  · exact Or.inl rfl
  · cases hLk : lookupA st.aggregated (conn.ip, conn.timestamp / 300000)
    · simp [hLk]
    · exact Or.inr (Or.inl ⟨_, rfl, by simp [hLk]⟩)
  · cases hLk : lookupA st.aggregated (conn.ip, conn.timestamp / 300000)
    · simp [hLk]
    · exact Or.inr (Or.inl ⟨_, rfl, by simp [hLk]⟩)
  · exact Or.inl rfl
  · exact Or.inl rfl

theorem reductionStep_aggOK (hv : List String) (now : Nat)
    (st : ReductionState) (conn : RConn) (h : AggOK st) :
    AggOK (reductionStep hv now st conn) := by
  rcases reductionStep_aggregated hv now st conn with hA | ⟨ex, hex, hA⟩ | hA
  · intro e he
    rw [hA] at he
    exact h e he
  · intro e he
    rw [hA] at he
    rcases mem_setA _ _ _ e he with h' | rfl
    · exact h e h'
    · have hx := h _ (lookupA_mem _ _ _ hex)
      exact hx
  · intro e he
    rw [hA] at he
    rcases mem_setA _ _ _ e he with h' | rfl
    · exact h e h'
    · rfl

theorem reductionStep_present (hv : List String) (now : Nat)
    (st : ReductionState) (conn : RConn) (x : String) (hA : AggOK st)
    (hp : ipPresent x st) : ipPresent x (reductionStep hv now st conn) := by
  rcases hp with ⟨r, hr, hrip⟩ | ⟨e, he, heip⟩
  · rcases reductionStep_result hv now st conn with hR | hR
    · exact Or.inl ⟨r, by rw [hR]; exact hr, hrip⟩
    · exact Or.inl ⟨r, by rw [hR]; exact List.mem_append_left _ hr, hrip⟩
  · rcases reductionStep_aggregated hv now st conn with hAg | ⟨ex, hex, hAg⟩ | hAg
    · exact Or.inr ⟨e, by rw [hAg]; exact he, heip⟩
    · by_cases hk : e.1 = (conn.ip, conn.timestamp / 300000)
      · refine Or.inr ⟨((conn.ip, conn.timestamp / 300000), mergeCounters ex conn),
          by rw [hAg]; exact setA_self_mem _ _ _, ?_⟩
        have h1 := hA _ (lookupA_mem _ _ _ hex)
        have h2 := hA e he
        show (mergeCounters ex conn).ip = x
        have h3 : (mergeCounters ex conn).ip = ex.ip := rfl
        have h4 : e.1.1 = conn.ip := by rw [hk]
        rw [h3, h1, ← h4, ← h2, heip]
      · exact Or.inr ⟨e, by rw [hAg]; exact mem_setA_of_ne _ _ _ e he hk, heip⟩
    · by_cases hk : e.1 = (conn.ip, conn.timestamp / 300000)
      · refine Or.inr ⟨((conn.ip, conn.timestamp / 300000), conn),
          by rw [hAg]; exact setA_self_mem _ _ _, ?_⟩
        have h2 := hA e he
        have h4 : e.1.1 = conn.ip := by rw [hk]
        show conn.ip = x
        rw [← h4, ← h2, heip]
      · exact Or.inr ⟨e, by rw [hAg]; exact mem_setA_of_ne _ _ _ e he hk, heip⟩

theorem reductionStep_adds (hv : List String) (now : Nat)
    (st : ReductionState) (conn : RConn) (hA : AggOK st)
    (h1 : isTransient conn = false)
    (h2 : (conn.direction == "inbound" && conn.state == some "LISTEN") = false) :
    ipPresent conn.ip (reductionStep hv now st conn) := by
  unfold reductionStep
  dsimp only
  simp only [h1, h2, Bool.false_and, Bool.false_eq_true, if_false]
  split_ifs with h3
  · cases hLk : lookupA st.aggregated (conn.ip, conn.timestamp / 300000) with
    | none =>
      simp only [hLk]
      exact Or.inl ⟨conn, List.mem_append_right _ (List.mem_singleton_self _), rfl⟩
    | some ex =>
      simp only [hLk]
      refine Or.inr ⟨((conn.ip, conn.timestamp / 300000), mergeCounters ex conn),
        setA_self_mem _ _ _, ?_⟩
      have hx := hA _ (lookupA_mem _ _ _ hLk)
      exact hx
  · exact Or.inl ⟨conn, List.mem_append_right _ (List.mem_singleton_self _), rfl⟩

theorem foldl_reduction_aggOK (hv : List String) (now : Nat) :
    ∀ (conns : List RConn) (st : ReductionState), AggOK st →
      AggOK (conns.foldl (reductionStep hv now) st) := by
  intro conns
  induction conns with
  | nil => intro st h; exact h
  | cons c rest ih =>
    intro st h
    exact ih (reductionStep hv now st c) (reductionStep_aggOK hv now st c h)

theorem foldl_reduction_present (hv : List String) (now : Nat) (x : String) :
    ∀ (conns : List RConn) (st : ReductionState), AggOK st → ipPresent x st →
      ipPresent x (conns.foldl (reductionStep hv now) st) := by
  intro conns
  induction conns with
  | nil => intro st _ hp; exact hp
  | cons c rest ih =>
    intro st h hp
    exact ih (reductionStep hv now st c) (reductionStep_aggOK hv now st c h)
      (reductionStep_present hv now st c x h hp)

/-- Claim C6 (amended).  Data reduction never drops the first (or only)
observation of a previously-unseen endpoint, provided the record does not
carry one of the transient states (TIME_WAIT, CLOSE, LAST_ACK, FIN_WAIT,
SYN_RECV) and is not an inbound LISTEN record: for every such record in the
batch, some record with the same external address appears in the reduced
output.  (Transient-state records are always dropped, and inbound LISTEN
records can be suppressed by the listening-port dedup window, even for a
never-before-seen endpoint — see the counterexample.) -/
theorem applyDataReduction_keeps_nontransient (hv : List String)
    (recent0 : List ((Option String × Option Nat) × Nat)) (now : Nat)
    (conns : List RConn) (conn : RConn) (hc : conn ∈ conns)
    (h1 : isTransient conn = false)
    (h2 : (conn.direction == "inbound" && conn.state == some "LISTEN") = false) :
    ∃ r ∈ applyDataReduction hv recent0 now conns, r.ip = conn.ip := by
  obtain ⟨l1, l2, rfl⟩ := List.append_of_mem hc
  unfold applyDataReduction
  dsimp only
  rw [List.foldl_append, List.foldl_cons]
  have hA1 : AggOK (l1.foldl (reductionStep hv now) ⟨recent0, [], []⟩) :=
    foldl_reduction_aggOK hv now l1 _ (fun e he => absurd he (List.not_mem_nil e))
  have hadd := reductionStep_adds hv now _ conn hA1 h1 h2
  have hA2 := reductionStep_aggOK hv now _ conn hA1
  have hfin := foldl_reduction_present hv now conn.ip l2 _ hA2 hadd
  rcases hfin with ⟨r, hr, hrip⟩ | ⟨e, he, heip⟩
  · exact ⟨r, List.mem_append_left _ hr, hrip⟩
  · exact ⟨e.2, List.mem_append_right _ (List.mem_map.mpr ⟨e, he, rfl⟩), heip⟩

/-- Witness for claim C6: a single ordinary inbound record for a fresh
endpoint passes through reduction. -/
theorem applyDataReduction_keeps_nontransient_witness :
    ∃ r ∈ applyDataReduction highVolumeIPs [] 1000
      [⟨"203.0.113.5", 0, "inbound", none, none, none, 0, 0, 0, 0⟩],
      r.ip = "203.0.113.5" :=
  applyDataReduction_keeps_nontransient highVolumeIPs [] 1000
    [⟨"203.0.113.5", 0, "inbound", none, none, none, 0, 0, 0, 0⟩]
    ⟨"203.0.113.5", 0, "inbound", none, none, none, 0, 0, 0, 0⟩
    (List.mem_singleton_self _) (by decide) (by decide)

/-- The geolocation API response consumed by `getIPLocation` (server.js
line 153): the `status` field plus the payload fields the function copies.
The float fields `lat`/`lon` are carried as integers here; their values play
no role in the cache-control logic under test.  The JSON field named `as` is
called `asn` (Lean reserves `as`). -/
structure ApiGeo where
  status : String
  country : String
  countryCode : String
  regionName : String
  city : String
  lat : Int
  lon : Int
  timezone : String
  isp : String
  org : String
  asn : String
deriving DecidableEq, Repr

/-- `locationData` as built by `getIPLocation` on a `status === 'success'`
response (server.js lines 156-169). -/
structure LocationData where
  ip : String
  country : String
  countryCode : String
  region : String
  city : String
  latitude : Int
  longitude : Int
  timezone : String
  isp : String
  org : String
  asn : String
  cachedAt : String
deriving DecidableEq, Repr

/-- An entry of the module-level `geolocationCache` map: either a successful
`locationData` object or the `failureData` marker written by the catch
block (server.js lines 186-191). -/
inductive CacheEntry where
  | ok (d : LocationData)
  | failed (ip : String) (cachedAt : String)
deriving DecidableEq, Repr

/-- The field copy of server.js lines 156-169. -/
def mkLocationData (ip : String) (resp : ApiGeo) (nowIso : String) :
    LocationData :=
  { ip := ip
    country := resp.country
    countryCode := resp.countryCode
    region := resp.regionName
    city := resp.city
    latitude := resp.lat
    longitude := resp.lon
    timezone := resp.timezone
    isp := resp.isp
    org := resp.org
    asn := resp.asn
    cachedAt := nowIso }

/-- `getIPLocation(ip)` (server.js lines 143-195).  `oracle` models the
`axios.get` call to the external service: `Except.ok resp` a completed HTTP
request with parsed body `resp`, `Except.error` a thrown error (network
failure or non-2xx).  `nowIso` models `new Date().toISOString()`.  Returns
the value the JS function returns (the cached object on a hit, `none` for
`null`), the updated cache, and whether an external lookup was issued. -/
def getIPLocation (oracle : String → Except String ApiGeo) (nowIso : String)
    (cache : List (String × CacheEntry)) (ip : String) :
    Option CacheEntry × List (String × CacheEntry) × Bool :=
  match lookupA cache ip with
  | some e => (some e, cache, false)
  | none =>
    match oracle ip with
    | .ok resp =>
      if resp.status == "success" then
        (some (.ok (mkLocationData ip resp nowIso)),
         setA cache ip (.ok (mkLocationData ip resp nowIso)), true)
      else (none, cache, true)
    | .error _ => (none, setA cache ip (.failed ip nowIso), true)

theorem lookupA_map_update {K V : Type} [DecidableEq K] (k : K) (v : V) :
    ∀ l : List (K × V), l.any (fun e => e.1 = k) = true →
      lookupA (l.map (fun e => if e.1 = k then (k, v) else e)) k = some v := by
  intro l
  induction l with
  | nil => intro h; exact absurd h (by simp)
  | cons e rest ih =>
    intro h
    by_cases hek : e.1 = k
    · simp [hek, lookupA]
    · have h' : rest.any (fun a => decide (a.1 = k)) = true := by
        simp only [List.any_cons] at h
        simpa [hek] using h
      simp only [List.map_cons, if_neg hek, lookupA, if_neg hek]
      exact ih h'

theorem lookupA_append_of_none {K V : Type} [DecidableEq K] (k : K) :
    ∀ (l m : List (K × V)), l.any (fun e => e.1 = k) = false →
      lookupA (l ++ m) k = lookupA m k := by
  intro l
  induction l with
  | nil => intro m _; rfl
  | cons e rest ih =>
    intro m h
    rw [List.any_cons, Bool.or_eq_false_iff] at h
    have hek : ¬ e.1 = k := by simpa using h.1
    rw [List.cons_append, lookupA, if_neg hek]
    exact ih m h.2

theorem lookupA_setA_self {K V : Type} [DecidableEq K] (l : List (K × V))
    (k : K) (v : V) : lookupA (setA l k v) k = some v := by
  unfold setA
  split
  · next h => exact lookupA_map_update k v l h
  · next h =>
    rw [Bool.not_eq_true] at h
    rw [lookupA_append_of_none k l [(k, v)] h]
    simp [lookupA]

/-- Claim C7 (amended).  When the first lookup for a previously-uncached
address throws (a network/HTTP error) — or succeeds — the outcome is
memoized in the cache, and a subsequent `getIPLocation` call for the same
address issues no external lookup.  A completed response carrying a
non-success status, however, is not cached and is looked up again on every
call — see the counterexample. -/
theorem getIPLocation_memoizes_error (oracle : String → Except String ApiGeo)
    (n1 n2 : String) (cache : List (String × CacheEntry)) (ip : String)
    (hmiss : lookupA cache ip = none)
    (hout : (∃ e, oracle ip = .error e) ∨
      (∃ resp, oracle ip = .ok resp ∧ (resp.status == "success") = true)) :
    (getIPLocation oracle n2 (getIPLocation oracle n1 cache ip).2.1 ip).2.2 =
      false := by
  rcases hout with ⟨e, he⟩ | ⟨resp, hr, hs⟩
  · have hinner : (getIPLocation oracle n1 cache ip).2.1 =
        setA cache ip (.failed ip n1) := by
      unfold getIPLocation
      rw [hmiss, he]
    rw [hinner]
    unfold getIPLocation
    rw [lookupA_setA_self]
  · have hinner : (getIPLocation oracle n1 cache ip).2.1 =
        setA cache ip (.ok (mkLocationData ip resp n1)) := by
      unfold getIPLocation
      rw [hmiss, hr]
      simp [hs]
    rw [hinner]
    unfold getIPLocation
    rw [lookupA_setA_self]

/-- Witness for claim C7: a lookup that throws on every call; the second
call for the same address is served from the memoized failure. -/
theorem getIPLocation_memoizes_error_witness :
    (getIPLocation (fun _ => .error "boom") "t2"
      (getIPLocation (fun _ => .error "boom") "t1" [] "1.2.3.4").2.1
      "1.2.3.4").2.2 = false :=
  getIPLocation_memoizes_error (fun _ => .error "boom") "t1" "t2" [] "1.2.3.4"
    rfl (Or.inl ⟨"boom", rfl⟩)

/-- The completed-but-unsuccessful response the geolocation service returns
for reserved addresses: HTTP succeeds, body status is "fail". -/
def failStatusOracle : String → Except String ApiGeo :=
  fun _ => .ok ⟨"fail", "", "", "", "", 0, 0, "", "", "", ""⟩

/-- Claim C7 counterexample.  For an address whose lookup completes with a
non-success status, nothing is memoized: the first call issues an external
lookup and leaves the cache empty, and a second call for the same address
issues another external lookup, contrary to the claim that one failed
status suffices to suppress all later lookups. -/
theorem getIPLocation_fail_status_not_memoized :
    (getIPLocation failStatusOracle "t1" [] "5.6.7.8").2.2 = true ∧
      (getIPLocation failStatusOracle "t1" [] "5.6.7.8").2.1 = [] ∧
      (getIPLocation failStatusOracle "t2"
        (getIPLocation failStatusOracle "t1" [] "5.6.7.8").2.1
        "5.6.7.8").2.2 = true := by
  refine ⟨rfl, rfl, rfl⟩

/-- The 19-character `YYYY-MM-DD HH:MM:SS` shape matched by the timestamp
group of the collector's line regex
(`^([0-9]{4}-[0-9]{2}-[0-9]{2} [0-9]{2}:[0-9]{2}:[0-9]{2})`,
src/collect_wan_connections.sh line 42). -/
def tsShaped (l : List Char) : Bool :=
  match l with
  | [a1, a2, a3, a4, g1, b1, b2, g2, c1, c2, sp, d1, d2, k1, e1, e2, k2, f1, f2] =>
    a1.isDigit && a2.isDigit && a3.isDigit && a4.isDigit && g1 == '-' &&
    b1.isDigit && b2.isDigit && g2 == '-' && c1.isDigit && c2.isDigit &&
    sp == ' ' && d1.isDigit && d2.isDigit && k1 == ':' && e1.isDigit &&
    e2.isDigit && k2 == ':' && f1.isDigit && f2.isDigit
  | _ => false

/-- The internal-address prefix alternation of the collector script
(`^(192\.168\.|10\.|172\.(1[6-9]|2[0-9]|3[0-1])\.)`, line 51) — note it has
no loopback `127.` alternative, unlike `isExternalIP`. -/
def bashInternalPre (l : List Char) : Bool :=
  isPre (chars "192.168.") l || isPre (chars "10.") l ||
    range172strs.any (fun q => isPre (chars q) l)

/-- One candidate event produced by `collect_firemain_ips`: the JSON object
`{"timestamp": ..., "external_ip": ..., "internal_ip": ...}` (the
`collected_at` wall-clock field is omitted; nothing downstream reads it). -/
structure FiremainRec where
  timestamp : String
  external_ip : String
  internal_ip : String
deriving DecidableEq, Repr

/-- One line of `collect_firemain_ips` (src/collect_wan_connections.sh lines
42-77).  The anchored bash regex demands a timestamp-shaped 19-character
line start and two dotted-quad tokens at the very end of the line (the
greedy `.*` puts the two captures on the last two space-separated tokens);
a timestamp needs two tokens of its own, so a matching line has at least
four.  Classification then follows the script: an internal-prefixed address
becomes `internal_ip`; with two external addresses, the one differing from
the configured `WAN_IP` is the peer and `internal_ip` becomes `"WAN"`.
The script's final non-empty/quad re-check of `external_ip` is implied. -/
def parseFiremainLine (wanIp : String) (line : String) : Option FiremainRec :=
  let cs := chars line
  if !tsShaped (cs.take 19) then none
  else
    match (splitOnChar ' ' cs).reverse with
    | ip2 :: ip1 :: _ :: _ :: _ =>
      if quadChars ip1 && quadChars ip2 then
        let s1 := String.mk ip1
        let s2 := String.mk ip2
        let ts := String.mk (cs.take 19)
        if bashInternalPre ip1 then some ⟨ts, s2, s1⟩
        else if bashInternalPre ip2 then some ⟨ts, s1, s2⟩
        else if s1 != wanIp then some ⟨ts, s1, "WAN"⟩
        else some ⟨ts, s2, "WAN"⟩
      else none
    | _ => none

/-- `collect_firemain_ips` over a whole log blob: `grep 'BroDetect:
Conn:Debug'` selects the candidate lines, then each is parsed as above. -/
def collectFiremain (wanIp : String) (blob : String) : List FiremainRec :=
  ((splitOnChar '\n' (chars blob)).filter
      (fun l => hasInfix (chars "BroDetect: Conn:Debug") l)).filterMap
    (fun l => parseFiremainLine wanIp (String.mk l))

/-- The object pushed by the `connections` case of `extractIPsFromData`
(server.js lines 229-239).  The JS object literal has fields `ip`,
`timestamp`, `type` (here `ctype`; `type` is reserved), `details` and
`direction` — and, notably, no `internal_ip` field. -/
structure ExtractedIP where
  ip : String
  timestamp : String
  ctype : String
  details : String
  direction : String
deriving DecidableEq, Repr

/-- The `connections` case of `extractIPsFromData`: keep records whose
`external_ip` is truthy and classified external, tagging them
`firemain_log` / `inbound` and demoting the internal address to the human
readable `details` string. -/
def extractConnectionsCase (wan : Option String) (items : List FiremainRec) :
    List ExtractedIP :=
  items.filterMap (fun item =>
    if item.external_ip != "" && isExternalIP wan item.external_ip then
      some ⟨item.external_ip, item.timestamp, "firemain_log",
        "Connection from " ++ item.internal_ip, "inbound"⟩
    else none)

/-- The `connectionsForDB` mapping of `loadConnectionData` (server.js lines
435-450), applied to an extracted record: the JS `conn.internal_ip || null`
reads a field the `connections` extractor never sets, so `internal_ip` is
always NULL on this path. -/
def toConnForDB (e : ExtractedIP) : ConnInput :=
  { ip := e.ip
    timestamp := e.timestamp
    direction := some (if e.direction == "" then "inbound" else e.direction)
    connection_type := some e.ctype
    internal_ip := none
    internal_port := none
    external_port := none
    state := none
    orig_packets := some 0
    orig_bytes := some 0
    reply_packets := some 0
    reply_bytes := some 0
    details := if e.details == "" then none else some e.details
    source_file := some "live_collection" }

/-- The connection-log path end to end: collector extraction, endpoint
classification, and the database-record mapping.  `wanShell` is the
collector's `WAN_IP` configuration, `wanNode` the server's resolved egress
address. -/
def firemainPipeline (wanShell : String) (wanNode : Option String)
    (blob : String) : List ConnInput :=
  (extractConnectionsCase wanNode (collectFiremain wanShell blob)).map
    toConnForDB

/-- The spec's sample connection-log blob: the documented `BroDetect` line
ending in `99.182.4.194 192.168.86.105`, plus an unrelated line the grep
filter discards. -/
def sampleBlob : String :=
  "2025-09-07 02:06:22 WARN BroDetect: Conn:Debug:Orig_bytes: 116574375 C4LdXNNmEdWI5PpRi 99.182.4.194 192.168.86.105\n2025-09-07 02:06:23 INFO HeartBeat: tick"

set_option maxRecDepth 16384 in
/-- Claim C9 (amended).  Feeding the sample blob through the extractor and
normalizer produces exactly one record, with `externalAddress`
99.182.4.194 and `direction` inbound as claimed — but its `localAddress`
(`internal_ip`) is NULL, not 192.168.86.105: the extractor keeps the
internal address only inside the human-readable `details` text. -/
theorem firemainPipeline_sample :
    firemainPipeline "" none sampleBlob =
      [⟨"99.182.4.194", "2025-09-07 02:06:22", some "inbound",
        some "firemain_log", none, none, none, none, some 0, some 0, some 0,
        some 0, some "Connection from 192.168.86.105",
        some "live_collection"⟩] := by
  decide

set_option maxRecDepth 16384 in
/-- Claim C9 counterexample.  The single record the sample blob produces
does not carry `localAddress = 192.168.86.105`: its `internal_ip` column is
NULL. -/
theorem firemainPipeline_sample_no_internal_ip :
    (firemainPipeline "" none sampleBlob).length = 1 ∧
      (firemainPipeline "" none sampleBlob).all
        (fun r => r.internal_ip != some "192.168.86.105") = true := by
  refine ⟨by decide, by decide⟩

example : isExternalIP none "8.8.8.8" = true := by decide
example : isExternalIP none "192.168.1.5" = false := by decide
example : isExternalIP none "172.16.0.1" = false := by decide
example : isExternalIP none "172.32.0.1" = true := by decide
example : isExternalIP none "0.0.0.0" = true := by decide
example : isExternalIP (some "9.9.9.9") "9.9.9.9" = false := by decide

end FwMon
